import Mathlib

/-
Verification of the query-AST core of `data_diff` (file
`src/data_diff/queries/ast_classes.py`).

The Python AST classes are shallowly embedded as one inductive type `Expr`;
builder methods, `Select.make`, the name-resolution DFS and the per-node
`compile` methods are translated from the source.  The modules
`queries/compiler.py` and `queries/base.py` are not part of the sources at
hand; the few items the embedded code needs from them (the `Compiler`
context, the `SKIP` sentinel, the `Schema` mapping) are modelled from the
specification and marked as such.

Python exceptions are modelled with the `Except Err` monad.  Object identity
(`is`) is modelled as structural equality, and the one in-place mutation of
the source (`_ResolveColumn.resolve`) is modelled functionally: resolution
rebuilds the expression tree, which yields the same final tree because the
mutation is one-shot and local to the visited placeholder.
-/

namespace DataDiff

/-- Runtime classes of the Python literal values admitted by the `Expr`
union (`Union[ExprNode, str, bool, int, datetime, ArithString, None]`;
datetime and ArithString are not needed by any claim). -/
inductive PyTy where
  | str
  | int
  | bool
  | noneType
deriving DecidableEq, Repr

/-- A Python literal occurring as an expression (the non-`ExprNode` members
of the `Expr` union). -/
inductive PyLit where
  | str (s : String)
  | int (n : Int)
  | bool (b : Bool)
  | none
deriving DecidableEq, Repr

/-- A value of the `type` attribute of a node, or the runtime class of a
literal: `None` (the `ExprNode` default), a Python class such as `bool`
(`BinBoolOp.type`), or a schema-declared column type. -/
inductive TypeVal where
  | none
  | ty (t : PyTy)
  | schemaTy (s : String)
deriving DecidableEq, Repr

/-- Python exceptions raised by the embedded code, by kind. -/
inductive Err where
  | valueError
  | typeError
  | runtimeError (msg : String)
  | assertionError
  | attributeError
  | keyError
  | indexError
  | compileError (msg : String)
  | recursionError
deriving DecidableEq, Repr

/-- Modelled from the spec: `Schema` (from the absent `queries/base.py`) is
"an ordered, case-aware mapping from column name to declared type". -/
abbrev Schema := List (String × TypeVal)

/-- The AST node classes of `ast_classes.py` that the claims touch, plus the
literal leaves.  Field order matches the Python dataclass field order.
`Option` is used for fields whose Python default is `None` and that hold a
non-`Expr` value (lists, ints, strings); fields of type `Expr` whose default
is `None` use the literal `.lit .none` for `None`, matching the Python
union. -/
inductive Expr where
  | lit (v : PyLit)
  | alias_ (expr : Expr) (name : String)
  | count (expr : Expr) (distinct : Bool)
  | func (name : String) (args : List Expr)
  | caseWhen (cases : List (Expr × Expr)) (else_ : Expr)
  | binOp (op : String) (args : List Expr)
  | binBoolOp (op : String) (args : List Expr)
  | column (source_table : Expr) (name : String)
  | tablePath (path : List String) (schema : Option Schema)
  | tableAlias (source_table : Expr) (name : String)
  | join (source_tables : List Expr) (op : Option String)
      (on_exprs : Option (List Expr)) (columns : Option (List Expr))
  | select (table : Expr) (columns : Option (List Expr))
      (where_exprs : Option (List Expr)) (order_by_exprs : Option (List Expr))
      (group_by_exprs : Option (List Expr)) (limit_expr : Option Int)
  | cte (source_table : Expr) (name : Option String) (params : Option (List String))
  | resolveColumn (resolve_name : String) (resolved : Option Expr)

/-- Python truthiness of a value of the `Expr` union: `None`, `""`, `0` and
`False` are falsy; AST node instances are truthy (none of the dataclasses
defines a length or a boolean conversion). -/
def pyTruthy : Expr → Bool
  | .lit .none => false
  | .lit (.str s) => !s.isEmpty
  | .lit (.int n) => n != 0
  | .lit (.bool b) => b
  | _ => true

/-- Python truthiness of an optional-list field (`None` and `[]` are falsy). -/
def truthyList : Option (List Expr) → Bool
  | none => false
  | some es => !es.isEmpty

/-- Python truthiness of an optional-string field (`None` and `""` are falsy). -/
def truthyStr : Option String → Bool
  | none => false
  | some s => !s.isEmpty

mutual

/-- Structural equality on expressions, modelling Python object identity
(`is`) in a tree embedding that cannot express sharing. -/
def beqExpr : Expr → Expr → Bool
  | .lit v, .lit v' => v == v'
  | .alias_ e n, .alias_ e' n' => beqExpr e e' && n == n'
  | .count e d, .count e' d' => beqExpr e e' && d == d'
  | .func n as, .func n' as' => n == n' && beqList as as'
  | .caseWhen cs e, .caseWhen cs' e' => beqPairs cs cs' && beqExpr e e'
  | .binOp o as, .binOp o' as' => o == o' && beqList as as'
  | .binBoolOp o as, .binBoolOp o' as' => o == o' && beqList as as'
  | .column s n, .column s' n' => beqExpr s s' && n == n'
  | .tablePath p s, .tablePath p' s' => p == p' && s == s'
  | .tableAlias s n, .tableAlias s' n' => beqExpr s s' && n == n'
  | .join ts o os cs, .join ts' o' os' cs' =>
      beqList ts ts' && o == o' && beqOptList os os' && beqOptList cs cs'
  | .select t c w ob g l, .select t' c' w' ob' g' l' =>
      beqExpr t t' && beqOptList c c' && beqOptList w w' && beqOptList ob ob'
        && beqOptList g g' && l == l'
  | .cte s n p, .cte s' n' p' => beqExpr s s' && n == n' && p == p'
  | .resolveColumn n r, .resolveColumn n' r' => n == n' && beqOpt r r'
  | _, _ => false

/-- List version of `beqExpr`. -/
def beqList : List Expr → List Expr → Bool
  | [], [] => true
  | e :: es, e' :: es' => beqExpr e e' && beqList es es'
  | _, _ => false

/-- Pair-list version of `beqExpr` (for `CaseWhen.cases`). -/
def beqPairs : List (Expr × Expr) → List (Expr × Expr) → Bool
  | [], [] => true
  | (a, b) :: ps, (a', b') :: ps' => beqExpr a a' && beqExpr b b' && beqPairs ps ps'
  | _, _ => false

/-- Option version of `beqExpr`. -/
def beqOpt : Option Expr → Option Expr → Bool
  | none, none => true
  | some e, some e' => beqExpr e e'
  | _, _ => false

/-- Option-list version of `beqExpr`. -/
def beqOptList : Option (List Expr) → Option (List Expr) → Bool
  | none, none => true
  | some es, some es' => beqList es es'
  | _, _ => false

end

mutual

/-- `ExprNode._dfs_values`: yield the node itself, then walk the field
values in dataclass order, skipping any field named `source_table`
(`Column.source_table`, `TableAlias.source_table`, `Cte.source_table`; the
`source_table` of `TablePath`, `Select`, `Join` is a property, not a field,
so it never appears in the attribute dictionary).  A field value that is a
list or tuple is iterated one level; elements (and scalar field values)
contribute only when they are `ExprNode` instances, so literals and the
`(when, then)` tuples of `CaseWhen.cases` are never descended into. -/
def dfs_values (e : Expr) : List Expr :=
  match e with
  | .lit v => [.lit v]
  | .alias_ x n => .alias_ x n :: dfsChild x
  | .count x d => .count x d :: dfsChild x
  | .func n args => .func n args :: dfsChildList args
  | .caseWhen cs els => .caseWhen cs els :: dfsChild els
  | .binOp op args => .binOp op args :: dfsChildList args
  | .binBoolOp op args => .binBoolOp op args :: dfsChildList args
  | .column st n => [.column st n]
  | .tablePath p s => [.tablePath p s]
  | .tableAlias st n => [.tableAlias st n]
  | .join sts op ons cols =>
      .join sts op ons cols :: (dfsChildList sts ++ dfsChildOpt ons ++ dfsChildOpt cols)
  | .select tb cs ws os gs lim =>
      .select tb cs ws os gs lim
        :: (dfsChild tb ++ dfsChildOpt cs ++ dfsChildOpt ws ++ dfsChildOpt os ++ dfsChildOpt gs)
  | .cte st n p => [.cte st n p]
  | .resolveColumn n r =>
      .resolveColumn n r :: (match r with | none => [] | some x => dfsChild x)

/-- DFS contribution of a scalar field value: recurse only into `ExprNode`
instances, never into plain values. -/
def dfsChild (e : Expr) : List Expr :=
  match e with
  | .lit _ => []
  | e => dfs_values e

/-- DFS contribution of a list- or tuple-valued field. -/
def dfsChildList : List Expr → List Expr
  | [] => []
  | e :: es =>
      (match e with | .lit _ => [] | e => dfs_values e) ++ dfsChildList es

/-- DFS contribution of a field holding `None` or a list. -/
def dfsChildOpt : Option (List Expr) → List Expr
  | none => []
  | some es => dfsChildList es

end

/-- The `source_table` attribute: a dataclass field on `Column`,
`TableAlias` and `Cte`, a self-returning property on `TablePath`, `Select`
and `Join`; any other receiver raises `AttributeError`. -/
def source_table : Expr → Except Err Expr
  | .column st _ => .ok st
  | .tableAlias st _ => .ok st
  | .cte st _ _ => .ok st
  | .tablePath p s => .ok (.tablePath p s)
  | .select tb cs ws os gs lim => .ok (.select tb cs ws os gs lim)
  | .join sts op ons cols => .ok (.join sts op ons cols)
  | _ => .error .attributeError

/-- The runtime class of a literal, as returned by `type(e)`. -/
def litType : PyLit → TypeVal
  | .str _ => .ty .str
  | .int _ => .ty .int
  | .bool _ => .ty .bool
  | .none => .ty .noneType

/-- Python `dict` insertion: re-assigning an existing key updates the value
in place, a new key is appended (insertion order preserved). -/
def dictInsert (m : Schema) (k : String) (v : TypeVal) : Schema :=
  if m.any (fun p => p.1 == k) then
    m.map (fun p => if p.1 == k then (k, v) else p)
  else
    m ++ [(k, v)]

/-- Modelled from the spec: case-insensitive key lookup of the case-aware
`Schema` mapping of the absent `queries/base.py` (`schema.get_key(name)`
returns the stored spelling of a matching key; a missing key raises
`KeyError`). -/
def schemaGetKey (m : Schema) (n : String) : Except Err String :=
  match m.find? (fun p => p.1.toLower == n.toLower) with
  | some p => .ok p.1
  | none => .error .keyError

/-- Modelled from the spec: item access `schema[name]` on the case-aware
mapping, raising `KeyError` when absent. -/
def schemaLookup (m : Schema) (n : String) : Except Err TypeVal :=
  match m.find? (fun p => p.1.toLower == n.toLower) with
  | some p => .ok p.2
  | none => .error .keyError

mutual

/-- The `type` attribute of a value of the `Expr` union, accessed directly
(literals have no `type` attribute, so they raise `AttributeError`; nodes
use the class default `None` or their `type` property). -/
def attrType (e : Expr) : Except Err TypeVal :=
  match e with
  | .lit _ => .error .attributeError
  | .alias_ x _ =>
      -- `Alias.type` is `get_type(self.expr)`: the node type, or the class
      -- of a literal.
      (match x with | .lit v => .ok (litType v) | x => attrType x)
  | .count _ _ => .ok .none
  | .func _ _ => .ok .none
  | .caseWhen cs els => do
      -- `CaseWhen.type`: collect `_expr_type` of every `then` branch into
      -- a set; when `else_` is truthy the source executes
      -- `when_types |= _expr_type(self.else_)`, which unions a `set` with
      -- a type object and therefore raises `TypeError`; otherwise a
      -- multi-element set raises `RuntimeError` and the unique element is
      -- returned (an empty set fails to unpack, raising `ValueError`).
      let tys ← thenTypes cs
      if pyTruthy els then
        let _ ← (match els with | .lit v => pure (litType v) | x => attrType x)
        .error .typeError
      else
        if tys.length > 1 then .error (.runtimeError "Non-matching types in when")
        else match tys with
          | [t] => .ok t
          | _ => .error .valueError
  | .binOp _ _ => .ok .none
  | .binBoolOp _ _ => .ok (.ty .bool)
  | .column st n => do
      -- `Column.type`: requires `source_table.schema`, then looks the
      -- column name up in it.
      match (← schemaOf st) with
      | none => .error (.runtimeError "Schema required for table")
      | some sch => schemaLookup sch n
  | .tablePath _ _ => .ok .none
  | .tableAlias _ _ => .ok .none
  | .join _ _ _ _ => .ok .none
  | .select _ _ _ _ _ _ => .ok .none
  | .cte _ _ _ => .ok .none
  | .resolveColumn n r =>
      -- `_ResolveColumn.type`: fails while unresolved, else delegates to
      -- the resolved expression.
      match r with
      | none => .error (.runtimeError ("Column not resolved: " ++ n))
      | some x => attrType x

/-- The set comprehension of `CaseWhen.type`: `_expr_type` of each `then`
branch, deduplicated like a Python `set` (only cardinality and the sole
element are observed by the source). -/
def thenTypes : List (Expr × Expr) → Except Err (List TypeVal)
  | [] => .ok []
  | (_, w) :: rest => do
      let t ← (match w with | .lit v => pure (litType v) | x => attrType x)
      let ts ← thenTypes rest
      .ok (if ts.contains t then ts else t :: ts)

/-- The `schema` attribute: a field on `TablePath`, the `ITable` class
default `None` on `TableAlias`, properties on `Join`, `Select` and `Cte`,
and an `AttributeError` on every non-table node and on literals. -/
def schemaOf (e : Expr) : Except Err (Option Schema) :=
  match e with
  | .tablePath _ s => .ok s
  | .tableAlias _ _ => .ok none
  | .join sts _ _ cols =>
      -- `Join.schema`: `assert self.columns`, then rebuilds a mapping
      -- `{c.name: c.type}` typed like the first source schema
      -- (`type(s)(…)` on `s = None` raises `TypeError`).
      match cols with
      | none => .error .assertionError
      | some colList =>
          if colList.isEmpty then .error .assertionError
          else match sts with
            | [] => .error .indexError
            | t0 :: _ => do
                let s ← schemaOf t0
                let m ← schemaFromCols colList []
                match s with
                | none => .error .typeError
                | some _ => .ok (some m)
  | .select tb cs _ _ _ _ => do
      -- `Select.schema`: the table schema when either it or `columns` is
      -- absent, else the rebuilt mapping `{c.name: c.type}`.
      let s ← schemaOf tb
      match s, cs with
      | none, _ => .ok none
      | some s', none => .ok (some s')
      | some _, some cols => do
          let m ← schemaFromCols cols []
          .ok (some m)
  | .cte st _ _ => schemaOf st
  | _ => .error .attributeError

/-- The dict comprehension `{c.name: c.type for c in columns}` used by
`Join.schema` and `Select.schema`, evaluated left to right. -/
def schemaFromCols (cols : List Expr) (acc : Schema) : Except Err Schema :=
  match cols with
  | [] => .ok acc
  | c :: rest => do
      let n ← attrName c
      let t ← attrType c
      schemaFromCols rest (dictInsert acc n t)

/-- The `name` attribute of a value of the `Expr` union: a field on
`Alias`, `Func`, `Column`, `TableAlias` (and `Cte`, whose optional value is
modelled only when present), the buggy property on `_ResolveColumn` (see
`rcNameFuel`), and `AttributeError` elsewhere. -/
def attrName (e : Expr) : Except Err String :=
  match e with
  | .alias_ _ n => .ok n
  | .func n _ => .ok n
  | .column _ n => .ok n
  | .tableAlias _ n => .ok n
  | .cte _ (some n) _ => .ok n
  | .resolveColumn _ r =>
      match r with
      | none =>
          -- The unresolved branch of the `name` property interpolates
          -- `self.name` into its own error message and recurses without
          -- bound; `rcNameFuel` below models the recursion explicitly and
          -- proves that no stack depth yields a normal result.
          .error .recursionError
      | some x => attrName x
  | _ => .error .attributeError

end

/-- Reading `CaseWhen.type` on a node with the given cases and else
branch. -/
def caseWhenType (cs : List (Expr × Expr)) (els : Expr) : Except Err TypeVal :=
  attrType (.caseWhen cs els)

/-- The `_ResolveColumn.name` property with an explicit stack budget: when
unresolved, the source raises
`RuntimeError(f"Column not resolved: {self.name}")`, whose message
re-enters the property; each re-entry consumes stack until Python aborts
with `RecursionError`. -/
def rcNameFuel (fuel : Nat) (n : String) (r : Option Expr) : Except Err String :=
  match r with
  | some x => attrName x
  | none =>
      match fuel with
      | 0 => .error .recursionError
      | fuel' + 1 => do
          let inner ← rcNameFuel fuel' n none
          .error (.runtimeError ("Column not resolved: " ++ inner))

/-- `ITable._get_column`: when the schema is truthy, normalise the name
through `schema.get_key`; always return a `Column` over the receiver. -/
def get_column (t : Expr) (n : String) : Except Err Expr := do
  match (← schemaOf t) with
  | some sch =>
      if sch.isEmpty then .ok (.column t n)
      else do
        let key ← schemaGetKey sch n
        .ok (.column t key)
  | none => .ok (.column t n)

/-- `_ResolveColumn.resolve`: `assert self.resolved is None`, then store
the expression; modelled functionally by returning the updated
placeholder. -/
def rcResolve (n : String) (resolved : Option Expr) (x : Expr) : Except Err Expr :=
  match resolved with
  | some _ => .error .assertionError
  | none => .ok (.resolveColumn n (some x))

mutual

/-- The effect of `resolve_names` on one `ExprNode` of the iteration of
`_dfs_values`: every `_ResolveColumn` at a DFS-visited position is resolved
to `source_table._get_column(its name)` (the argument is evaluated before
the `resolve` call, so its exceptions win over the single-assignment
assertion); every other node is rebuilt with its visited children resolved,
and positions the DFS does not visit — `source_table` fields, plain values,
and elements of nested containers such as the `(when, then)` tuples of
`CaseWhen.cases` — are returned untouched. -/
def resolveNode (st : Expr) (e : Expr) : Except Err Expr :=
  match e with
  | .lit v => .ok (.lit v)
  | .alias_ x n => do .ok (.alias_ (← resolveChild st x) n)
  | .count x d => do .ok (.count (← resolveChild st x) d)
  | .func n args => do .ok (.func n (← resolveChildList st args))
  | .caseWhen cs els => do .ok (.caseWhen cs (← resolveChild st els))
  | .binOp op args => do .ok (.binOp op (← resolveChildList st args))
  | .binBoolOp op args => do .ok (.binBoolOp op (← resolveChildList st args))
  | .column s n => .ok (.column s n)
  | .tablePath p s => .ok (.tablePath p s)
  | .tableAlias s n => .ok (.tableAlias s n)
  | .join sts op ons cols => do
      .ok (.join (← resolveChildList st sts) op (← resolveChildOpt st ons)
        (← resolveChildOpt st cols))
  | .select tb cs ws os gs lim => do
      .ok (.select (← resolveChild st tb) (← resolveChildOpt st cs)
        (← resolveChildOpt st ws) (← resolveChildOpt st os)
        (← resolveChildOpt st gs) lim)
  | .cte s n p => .ok (.cte s n p)
  | .resolveColumn n r => do
      let c ← get_column st n
      rcResolve n r c

/-- Resolution of a scalar field value: only `ExprNode` instances are
visited. -/
def resolveChild (st : Expr) (e : Expr) : Except Err Expr :=
  match e with
  | .lit v => .ok (.lit v)
  | e => resolveNode st e

/-- Resolution of the elements of a list- or tuple-valued field. -/
def resolveChildList (st : Expr) : List Expr → Except Err (List Expr)
  | [] => .ok []
  | e :: es => do
      let e' ← (match e with | .lit v => pure (Expr.lit v) | e => resolveNode st e)
      let es' ← resolveChildList st es
      .ok (e' :: es')

/-- Resolution of a field holding `None` or a list. -/
def resolveChildOpt (st : Expr) : Option (List Expr) → Except Err (Option (List Expr))
  | none => .ok none
  | some es => do .ok (some (← resolveChildList st es))

end

/-- `resolve_names(source_table, exprs)`: update every `_ResolveColumn`
reached by `_dfs_values` of each `ExprNode` element of `exprs`; non-node
elements are skipped, which `resolveChild` renders as returning them
unchanged. -/
def resolve_names (st : Expr) (es : List Expr) : Except Err (List Expr) :=
  match es with
  | [] => .ok []
  | e :: rest => do
      let e' ← resolveChild st e
      let rest' ← resolve_names st rest
      .ok (e' :: rest')

/-- Modelled from the spec: an argument of a builder verb is either an
expression or the `SKIP` sentinel of the absent `queries/base.py` ("a
singleton marker meaning omit this argument"). -/
inductive Arg where
  | skip
  | expr (e : Expr)

/-- `_drop_skips`: keep the non-`SKIP` arguments, in order. -/
def drop_skips (args : List Arg) : List Expr :=
  args.filterMap (fun a => match a with | .skip => Option.none | .expr e => some e)

/-- `_drop_skips_dict`: keep the named arguments whose value is not
`SKIP`. -/
def drop_skips_dict (named : List (String × Arg)) : List (String × Expr) :=
  named.filterMap (fun p => match p.2 with
    | .skip => Option.none
    | .expr e => some (p.1, e))

/-- `_named_exprs_as_aliases`: wrap each named expression as
`Alias(expr, name)`. -/
def named_exprs_as_aliases (named : List (String × Expr)) : List Expr :=
  named.map (fun p => .alias_ p.2 p.1)

/-- The keyword argument handed to `Select.make` by a builder verb: exactly
one of the four mergeable attributes, with its value. -/
inductive MakeArg where
  | columns (v : List Expr)
  | whereExprs (v : List Expr)
  | orderByExprs (v : List Expr)
  | limitExpr (v : Int)

/-- `Select.make(table, _concat, **kwargs)` for a single keyword argument:
wrap a non-`Select` table in a fresh `Select`; on a `Select`, overwrite an
unset (`None`) attribute, concatenate onto a set one when `_concat` is
true (`+` is list concatenation, or integer addition for `limit_expr`), and
raise `ValueError` otherwise. -/
def Select_make (t : Expr) (concat : Bool) (k : MakeArg) : Except Err Expr :=
  match t with
  | .select tb cs ws os gs lim =>
      match k with
      | .columns v =>
          match cs with
          | none => .ok (.select tb (some v) ws os gs lim)
          | some old =>
              if concat then .ok (.select tb (some (old ++ v)) ws os gs lim)
              else .error .valueError
      | .whereExprs v =>
          match ws with
          | none => .ok (.select tb cs (some v) os gs lim)
          | some old =>
              if concat then .ok (.select tb cs (some (old ++ v)) os gs lim)
              else .error .valueError
      | .orderByExprs v =>
          match os with
          | none => .ok (.select tb cs ws (some v) gs lim)
          | some old =>
              if concat then .ok (.select tb cs ws (some (old ++ v)) gs lim)
              else .error .valueError
      | .limitExpr v =>
          match lim with
          | none => .ok (.select tb cs ws os gs (some v))
          | some old =>
              if concat then .ok (.select tb cs ws os gs (some (old + v)))
              else .error .valueError
  | t =>
      match k with
      | .columns v => .ok (.select t (some v) none none none none)
      | .whereExprs v => .ok (.select t none (some v) none none none)
      | .orderByExprs v => .ok (.select t none none (some v) none none)
      | .limitExpr v => .ok (.select t none none none none (some v))

/-- `ITable.select(*exprs, **named_exprs)`: drop `SKIP`s, append the named
expressions as aliases, resolve names against `self.source_table`, then
`Select.make(self, columns=exprs)`.  The `args_as_tuple` normalisation of
the Python varargs (a single list argument stands for its elements) happens
before this model, whose callers pass the argument list explicitly. -/
def ITable_select (t : Expr) (args : List Arg) (named : List (String × Arg)) :
    Except Err Expr := do
  let exprs := drop_skips args ++ named_exprs_as_aliases (drop_skips_dict named)
  let st ← source_table t
  let exprs ← resolve_names st exprs
  Select_make t false (.columns exprs)

/-- `ITable.where(*exprs)`: drop `SKIP`s; with nothing left return `self`
unchanged, else resolve names and `Select.make(self, where_exprs=exprs,
_concat=True)`. -/
def ITable_where (t : Expr) (args : List Arg) : Except Err Expr := do
  let exprs := drop_skips args
  if exprs.isEmpty then .ok t
  else do
    let st ← source_table t
    let exprs ← resolve_names st exprs
    Select_make t true (.whereExprs exprs)

/-- `ITable.order_by(*exprs)`: like `where`, into `order_by_exprs`, without
concatenation. -/
def ITable_order_by (t : Expr) (args : List Arg) : Except Err Expr := do
  let exprs := drop_skips args
  if exprs.isEmpty then .ok t
  else do
    let st ← source_table t
    let exprs ← resolve_names st exprs
    Select_make t false (.orderByExprs exprs)

/-- The argument of `ITable.limit`: an integer or the `SKIP` sentinel. -/
inductive LimitArg where
  | skip
  | val (n : Int)

/-- `ITable.limit(limit)`: `SKIP` returns `self`; else
`Select.make(self, limit_expr=limit)`. -/
def ITable_limit (t : Expr) (a : LimitArg) : Except Err Expr :=
  match a with
  | .skip => .ok t
  | .val n => Select_make t false (.limitExpr n)

/-- `Join.select(*exprs, **named_exprs)` on a join with the given fields:
when `columns` is already set, fall through to the generic
`ITable.select`; when unset, record the (skip-filtered, alias-wrapped)
expressions as the join's own `columns` without resolving names. -/
def Join_select (sts : List Expr) (op : Option String) (ons cols : Option (List Expr))
    (args : List Arg) (named : List (String × Arg)) : Except Err Expr :=
  match cols with
  | some _ => ITable_select (.join sts op ons cols) args named
  | none =>
      .ok (.join sts op ons
        (some (drop_skips args ++ named_exprs_as_aliases (drop_skips_dict named))))

/-- Modelled from the spec: the dialect adapter interface consumed by the
compiler (the adapter lives outside this core); only the operations the
embedded nodes call are modelled. -/
structure Dialect where
  quote : String → String
  offset_limit : Nat → Int → String
  is_autocommit : Bool

/-- Modelled from the spec: the immutable part of the `Compiler` context of
the absent `queries/compiler.py` — the dialect adapter, the ordered
`_table_context`, and the `in_select` / `in_join` parenthesisation flags. -/
structure Ctx where
  database : Dialect
  table_context : List Expr := []
  in_select : Bool := false
  in_join : Bool := false

/-- Modelled from the spec: the per-compilation shared scratch state — the
monotonic unique-name counter (`tmp1`, `tmp2`, …) and the ordered
`_subqueries` registry of CTE definitions. -/
structure CState where
  counter : Nat := 0
  subqueries : List (String × String) := []

/-- Modelled from the spec: `Compiler.new_unique_name`, producing stable
fresh identifiers `tmp1`, `tmp2`, … monotonic within a compilation. -/
def new_unique_name (s : CState) : String × CState :=
  ("tmp" ++ toString (s.counter + 1), { s with counter := s.counter + 1 })

/-- Modelled from the spec: how `Compiler.compile` renders the non-node
members of the `Expr` union (strings pass through — `Count`'s default
`"*"` compiles to `count(*)` — and integers render in decimal; the claims
exercise none of these renderings). -/
def compile_literal : PyLit → String
  | .str s => s
  | .int n => toString n
  | .bool b => if b then "True" else "False"
  | .none => "NULL"

/-- Python dict assignment `d[k] = v` on the ordered `_subqueries`
registry. -/
def registryPut (m : List (String × String)) (k v : String) : List (String × String) :=
  if m.any (fun p => p.1 == k) then
    m.map (fun p => if p.1 == k then (k, v) else p)
  else
    m ++ [(k, v)]

/-- The alias-assignment pass of `Join.compile`: each source that is not
already a `TableAlias` receives a fresh unique name, left to right, before
anything is compiled; the names are returned in a list parallel to the
sources. -/
def assignAliases (sts : List Expr) (s : CState) : List (Option String) × CState :=
  match sts with
  | [] => ([], s)
  | t :: rest =>
      match t with
      | .tableAlias _ _ =>
          let (names, s1) := assignAliases rest s
          (none :: names, s1)
      | _ =>
          let (nm, s1) := new_unique_name s
          let (names, s2) := assignAliases rest s1
          (some nm :: names, s2)

/-- The aliased table list of `Join.compile` as data: each source paired
with its fresh name (when it got one) becomes a `TableAlias` for the
derived table context. -/
def aliasedTables (sts : List Expr) (names : List (Option String)) : List Expr :=
  (sts.zip names).map (fun p =>
    match p.2 with
    | some n => .tableAlias p.1 n
    | none => p.1)

mutual

/-- The `compile` methods of the AST nodes, threaded with the shared
compilation state.  Context derivation (`replace`, `add_table_context`) is
modelled from the spec; each node's emission is translated from its
`compile` method in the source.  Object identity in the alias search of
`Column.compile` is modelled as structural equality (`beqExpr`). -/
def compileE (c : Ctx) (s : CState) (e : Expr) : Except Err (String × CState) :=
  match e with
  | .lit v => .ok (compile_literal v, s)
  | .alias_ x n => do
      let (xs, s1) ← compileE c s x
      .ok (xs ++ " AS " ++ c.database.quote n, s1)
  | .count x d => do
      let (xs, s1) ← compileE c s x
      .ok ((if d then "count(distinct " ++ xs ++ ")" else "count(" ++ xs ++ ")"), s1)
  | .func n args => do
      let (strs, s1) ← compileList c s args
      .ok (n ++ "(" ++ String.intercalate ", " strs ++ ")", s1)
  | .caseWhen cs els =>
      -- `assert self.cases`, join the WHEN/THEN pairs, then append the
      -- ELSE clause when `else_ is not None`.
      if cs.isEmpty then .error .assertionError
      else do
        let (wts, s1) ← compilePairs c s cs
        let whenThens := String.intercalate " " wts
        let (elseStr, s2) ←
          match els with
          | .lit .none => pure ("", s1)
          | els => do
              let (es, s2) ← compileE c s1 els
              pure (" ELSE " ++ es, s2)
        .ok ("CASE " ++ whenThens ++ elseStr ++ " END", s2)
  | .binOp op args =>
      -- `a, b = self.args` (a non-binary argument list fails to unpack).
      (match args with
      | [a, b] => do
          let (as_, s1) ← compileE c s a
          let (bs, s2) ← compileE c s1 b
          .ok ("(" ++ as_ ++ " " ++ op ++ " " ++ bs ++ ")", s2)
      | _ => .error .valueError)
  | .binBoolOp op args =>
      (match args with
      | [a, b] => do
          let (as_, s1) ← compileE c s a
          let (bs, s2) ← compileE c s1 b
          .ok ("(" ++ as_ ++ " " ++ op ++ " " ++ bs ++ ")", s2)
      | _ => .error .valueError)
  | .column st n =>
      -- With more than one table in scope, search the context for the
      -- unique `TableAlias` wrapping this column's source table.
      if c.table_context.isEmpty then .ok (c.database.quote n, s)
      else if c.table_context.length > 1 then
        match c.table_context.filter (fun t =>
          match t with
          | .tableAlias src _ => beqExpr src st
          | _ => false) with
        | [] => .ok (c.database.quote n, s)
        | [.tableAlias _ an] =>
            .ok (c.database.quote an ++ "." ++ c.database.quote n, s)
        | _ => .error (.compileError ("Too many aliases for column " ++ n))
      else .ok (c.database.quote n, s)
  | .tablePath p _ => .ok (String.intercalate "." (p.map c.database.quote), s)
  | .tableAlias st n => do
      let (ts, s1) ← compileE c s st
      .ok (ts ++ " " ++ c.database.quote n, s1)
  | .join sts op ons cols =>
      -- Wrap each source that is not already a `TableAlias` in a fresh
      -- one; compile under a derived context with the aliases appended,
      -- `in_join=True`, `in_select=False`; wrap the result according to
      -- the parent flags.
      let (names, s1) := assignAliases sts s
      let c' : Ctx := { c with table_context := c.table_context ++ aliasedTables sts names,
                               in_join := true, in_select := false }
      let opStr := match op with
        | none => " JOIN "
        | some o => " " ++ o ++ " JOIN "
      do
        let (tstrs, s2) ← compileSources c' s1 sts names
        let joined := String.intercalate opStr tstrs
        let (res, s3) ←
          match ons with
          | some onEs =>
              if onEs.isEmpty then pure (joined, s2)
              else do
                let (ostrs, s3) ← compileList c' s2 onEs
                pure (joined ++ " ON " ++ String.intercalate " AND " ostrs, s3)
          | none => pure (joined, s2)
        let (colStr, s4) ←
          match cols with
          | none => pure ("*", s3)
          | some colEs => do
              let (cstrs, s4) ← compileList c' s3 colEs
              pure (String.intercalate ", " cstrs, s4)
        let sel := "SELECT " ++ colStr ++ " FROM " ++ res
        if c.in_select then
          let (nm, s5) := new_unique_name s4
          .ok ("(" ++ sel ++ ") " ++ nm, s5)
        else if c.in_join then .ok ("(" ++ sel ++ ")", s4)
        else .ok (sel, s4)
  | .select tb cs ws os gs lim =>
      let c' : Ctx := { c with in_select := true }
      do
        let (colStr, s1) ←
          match cs with
          | some colEs =>
              if colEs.isEmpty then pure ("*", s)
              else do
                let (cstrs, s1) ← compileList c' s colEs
                pure (String.intercalate ", " cstrs, s1)
          | none => pure ("*", s)
        let sel := "SELECT " ++ colStr
        let (sel, s2) ←
          if pyTruthy tb then do
            let (ts, s2) ← compileE c' s1 tb
            pure (sel ++ " FROM " ++ ts, s2)
          else pure (sel, s1)
        let (sel, s3) ←
          match ws with
          | some wEs =>
              if wEs.isEmpty then pure (sel, s2)
              else do
                let (wstrs, s3) ← compileList c' s2 wEs
                pure (sel ++ " WHERE " ++ String.intercalate " AND " wstrs, s3)
          | none => pure (sel, s2)
        let (sel, s4) ←
          match gs with
          | some gEs =>
              if gEs.isEmpty then pure (sel, s3)
              else do
                let (gstrs, s4) ← compileList c' s3 gEs
                pure (sel ++ " GROUP BY " ++ String.intercalate ", " gstrs, s4)
          | none => pure (sel, s3)
        let (sel, s5) ←
          match os with
          | some oEs =>
              if oEs.isEmpty then pure (sel, s4)
              else do
                let (ostrs, s5) ← compileList c' s4 oEs
                pure (sel ++ " ORDER BY " ++ String.intercalate ", " ostrs, s5)
          | none => pure (sel, s4)
        let sel :=
          match lim with
          | some l => sel ++ " " ++ c.database.offset_limit 0 l
          | none => sel
        if c.in_select then
          let (nm, s6) := new_unique_name s5
          .ok ("(" ++ sel ++ ") " ++ nm, s6)
        else if c.in_join then .ok ("(" ++ sel ++ ")", s5)
        else .ok (sel, s5)
  | .cte st nm ps => do
      -- Compile the source under an emptied context, register the result
      -- under the (possibly fresh) name, emit just the name.
      let c' : Ctx := { c with table_context := [], in_select := false }
      let (compiled, s1) ← compileE c' s st
      let (name, s2) :=
        if truthyStr nm then (nm.getD "", s1) else new_unique_name s1
      let nameParams :=
        match ps with
        | some params =>
            if params.isEmpty then name
            else name ++ "(" ++ String.intercalate ", " params ++ ")"
        | none => name
      .ok (name, { s2 with subqueries := registryPut s2.subqueries nameParams compiled })
  | .resolveColumn n r =>
      match r with
      | none => .error (.runtimeError ("Column not resolved: " ++ n))
      | some x => compileE c s x

/-- Compile a list of expressions left to right, threading the state. -/
def compileList (c : Ctx) (s : CState) : List Expr → Except Err (List String × CState)
  | [] => .ok ([], s)
  | e :: es => do
      let (str, s1) ← compileE c s e
      let (strs, s2) ← compileList c s1 es
      .ok (str :: strs, s2)

/-- Compile the `WHEN … THEN …` fragments of `CaseWhen.compile`. -/
def compilePairs (c : Ctx) (s : CState) :
    List (Expr × Expr) → Except Err (List String × CState)
  | [] => .ok ([], s)
  | (w, t) :: rest => do
      let (wstr, s1) ← compileE c s w
      let (tstr, s2) ← compileE c s1 t
      let (strs, s3) ← compilePairs c s2 rest
      .ok (("WHEN " ++ wstr ++ " THEN " ++ tstr) :: strs, s3)

/-- Compile the sources of a join against the parallel list of freshly
assigned alias names; a freshly wrapped source compiles as
`TableAlias.compile` does (`<compiled source> <quoted name>`), inlined so
that the recursion stays on subterms of the join. -/
def compileSources (c : Ctx) (s : CState) :
    List Expr → List (Option String) → Except Err (List String × CState)
  | [], _ => .ok ([], s)
  | t :: rest, names => do
      let (tstr, s1) ← compileE c s t
      let tstr := match names.head? with
        | some (some n) => tstr ++ " " ++ c.database.quote n
        | _ => tstr
      let (strs, s2) ← compileSources c s1 rest names.tail
      .ok (tstr :: strs, s2)

end

/-- Whether a compilation result is real SQL or the `SKIP` sentinel
("do not execute"). -/
inductive CompileOut where
  | sql (s : String)
  | skipSentinel

/-- `Commit.compile`: the string `COMMIT`, unless the adapter reports
autocommit, in which case the `SKIP` sentinel. -/
def Commit_compile (c : Ctx) : CompileOut :=
  if c.database.is_autocommit then .skipSentinel else .sql "COMMIT"

/-- Whether the `Select` attribute addressed by a `Select.make` keyword
argument is already set (not `None`) on a `Select` with the given optional
fields. -/
def keyIsSet (cs ws os : Option (List Expr)) (lim : Option Int) : MakeArg → Bool
  | .columns _ => cs.isSome
  | .whereExprs _ => ws.isSome
  | .orderByExprs _ => os.isSome
  | .limitExpr _ => lim.isSome

/-- `S.replace(k=v)`: the `Select` with the addressed attribute overwritten
by the keyword value and every other field unchanged. -/
def keyReplace (tb : Expr) (cs ws os gs : Option (List Expr)) (lim : Option Int) :
    MakeArg → Expr
  | .columns v => .select tb (some v) ws os gs lim
  | .whereExprs v => .select tb cs (some v) os gs lim
  | .orderByExprs v => .select tb cs ws (some v) gs lim
  | .limitExpr v => .select tb cs ws os gs (some v)

/-- `S.replace(k=S.k + v)`: the `Select` with the keyword value concatenated
onto the addressed attribute (integer addition for `limit_expr`) and every
other field unchanged. -/
def keyConcat (tb : Expr) (cs ws os gs : Option (List Expr)) (lim : Option Int) :
    MakeArg → Expr
  | .columns v => .select tb (some (cs.getD [] ++ v)) ws os gs lim
  | .whereExprs v => .select tb cs (some (ws.getD [] ++ v)) os gs lim
  | .orderByExprs v => .select tb cs ws (some (os.getD [] ++ v)) gs lim
  | .limitExpr v => .select tb cs ws os gs (some (lim.getD 0 + v))

/-- Every successful `Select.make(table, columns=…)` result is a `Select`
whose `columns` field is set. -/
theorem Select_make_columns_isSet {t : Expr} {b : Bool} {v : List Expr} {r : Expr}
    (h : Select_make t b (.columns v) = .ok r) :
    ∃ tb cs ws os gs lim, r = .select tb (some cs) ws os gs lim := by
  cases t <;> simp only [Select_make] at h
  case select tb cs ws os gs lim =>
    cases cs with
    | none =>
        exact ⟨tb, v, ws, os, gs, lim, by injection h with h; exact h.symm⟩
    | some old =>
        cases b with
        | true =>
            exact ⟨tb, old ++ v, ws, os, gs, lim, by simp at h; exact h.symm⟩
        | false => simp at h
  all_goals exact ⟨_, v, none, none, none, none, by injection h with h; exact h.symm⟩

/-- `resolve_names` maps a list of expressions that resolution leaves
unchanged to itself. -/
theorem resolve_names_neutral {es : List Expr} (st : Expr)
    (h : ∀ e ∈ es, ∀ st', resolveChild st' e = .ok e) :
    resolve_names st es = .ok es := by
  induction es with
  | nil => rfl
  | cons e rest ih =>
      simp only [resolve_names, h e (by simp), ih (fun x hx st' => h x (by simp [hx]) st')]
      rfl

/-- Reduction of an `Except` bind on a success, for rewriting the
do-blocks of the embedded code. -/
theorem ok_bind {ε α β : Type} (a : α) (f : α → Except ε β) :
    (Except.ok a : Except ε α) >>= f = f a := rfl

/-- Reduction of an `Except` bind on an exception. -/
theorem error_bind {ε α β : Type} (e : ε) (f : α → Except ε β) :
    (Except.error e : Except ε α) >>= f = (Except.error e : Except ε β) := rfl

/-- The `_ResolveColumn.name` property never yields its intended
`RuntimeError`: the message interpolates `self.name`, so every re-entry
recurses again and the recursion exhausts any stack budget. -/
theorem rcNameFuel_unresolved (fuel : Nat) (n : String) :
    rcNameFuel fuel n none = .error .recursionError := by
  induction fuel with
  | zero => rfl
  | succ fuel ih =>
      simp only [rcNameFuel, ih]
      rfl

/-- Claim C3: reading `CaseWhen.type` diverges from the spec — with all
`then` branches of one type and no `else_` it returns that type, with
mismatched branch types it fails, but as soon as `else_` is present (and
truthy) it always raises `TypeError`, because the source unions the set of
branch types with a type object (`when_types |= _expr_type(self.else_)`)
instead of inserting it. -/
theorem caseWhen_type_else_raises :
    caseWhenType [(.lit (.bool true), .lit (.str "pos"))] (.lit (.str "neg"))
      = .error .typeError
    ∧ caseWhenType [(.lit (.bool true), .lit (.str "pos")),
        (.lit (.bool false), .lit (.str "zero"))] (.lit .none)
      = .ok (.ty .str)
    ∧ caseWhenType [(.lit (.bool true), .lit (.str "a")),
        (.lit (.bool false), .lit (.int 1))] (.lit .none)
      = .error (.runtimeError "Non-matching types in when") :=
  ⟨rfl, rfl, rfl⟩

/-- Claim C6: compiling an unresolved `_ResolveColumn`, or reading its
`type`, fails with a `RuntimeError` naming the symbol, and a second
`resolve` fails on the single-assignment assertion — but reading `name` on
an unresolved placeholder recurses unboundedly (for every stack budget the
result is `RecursionError`, never the descriptive error the claim
promises), because the error message itself reads `self.name`. -/
theorem resolveColumn_unresolved_behaviour (c : Ctx) (s : CState) (n : String)
    (x y : Expr) (fuel : Nat) :
    compileE c s (.resolveColumn n none)
      = .error (.runtimeError ("Column not resolved: " ++ n))
    ∧ attrType (.resolveColumn n none)
      = .error (.runtimeError ("Column not resolved: " ++ n))
    ∧ rcResolve n (some x) y = .error .assertionError
    ∧ rcNameFuel fuel n none = .error .recursionError :=
  ⟨rfl, rfl, rfl, rcNameFuel_unresolved fuel n⟩

/-- Claim C7: the DFS of `resolve_names` never descends through a field
named `source_table`: on the three node kinds that carry such a field
(`Column`, `TableAlias`, `Cte`) `_dfs_values` yields only the node itself,
and resolution returns them — and hence every placeholder buried inside
their `source_table` value, such as the nested alias example — untouched,
whatever the source table `sub` contains. -/
theorem resolve_names_skips_source_table (st sub : Expr) (n nm al : String)
    (onm : Option String) (ps : Option (List String)) :
    dfs_values (.column sub n) = [.column sub n]
    ∧ dfs_values (.tableAlias sub nm) = [.tableAlias sub nm]
    ∧ dfs_values (.cte sub onm ps) = [.cte sub onm ps]
    ∧ resolveNode st (.column sub n) = .ok (.column sub n)
    ∧ resolveNode st (.tableAlias sub nm) = .ok (.tableAlias sub nm)
    ∧ resolveNode st (.cte sub onm ps) = .ok (.cte sub onm ps)
    ∧ resolveNode st (.alias_ (.column sub n) al) = .ok (.alias_ (.column sub n) al) := by
  refine ⟨?_, ?_, ?_, ?_, ?_, ?_, ?_⟩ <;>
    (simp [dfs_values, resolveNode, resolveChild]; try rfl)

/-- Claim C8: compiling `Commit` yields the `SKIP` sentinel when the
adapter is in autocommit mode, and exactly the string `COMMIT`
otherwise. -/
theorem Commit_compile_autocommit (c : Ctx) :
    (c.database.is_autocommit = true → Commit_compile c = .skipSentinel)
    ∧ (c.database.is_autocommit = false → Commit_compile c = .sql "COMMIT") :=
  ⟨fun h => by simp [Commit_compile, h], fun h => by simp [Commit_compile, h]⟩

/-- A concrete dialect adapter (backtick quoting, as in the spec
scenarios), with autocommit off. -/
def backtickDialect : Dialect :=
  { quote := (fun s => "`" ++ s ++ "`"), offset_limit := (fun _ l => "LIMIT " ++ toString l), is_autocommit := false }

/-- The same concrete adapter with autocommit on. -/
def autocommitDialect : Dialect :=
  { backtickDialect with is_autocommit := true }

/-- Witness for C8 at two concrete adapters. -/
theorem Commit_compile_autocommit_witness :
    Commit_compile { database := autocommitDialect } = .skipSentinel
    ∧ Commit_compile { database := backtickDialect } = .sql "COMMIT" :=
  ⟨(Commit_compile_autocommit _).1 rfl, (Commit_compile_autocommit _).2 rfl⟩

/-- Claim C9: the DFS unwraps only one level of list or tuple, so on a
`CaseWhen` it yields the node and descends only into `else_`; the
`(when, then)` tuples of `cases` are not `ExprNode`s and are skipped, and a
placeholder stored inside such a tuple survives `resolve_names`
unresolved. -/
theorem dfs_skips_nested_containers (st : Expr) (cs : List (Expr × Expr))
    (els w : Expr) (n : String) :
    dfs_values (.caseWhen cs els) = .caseWhen cs els :: dfsChild els
    ∧ dfs_values (.caseWhen cs (.lit .none)) = [.caseWhen cs (.lit .none)]
    ∧ resolve_names st [.caseWhen [(w, .resolveColumn n none)] (.lit .none)]
        = .ok [.caseWhen [(w, .resolveColumn n none)] (.lit .none)] := by
  refine ⟨?_, ?_, ?_⟩ <;>
    (simp [dfs_values, dfsChild, resolve_names, resolveChild, resolveNode]; try rfl)

/-- Claim C10: `where` and `order_by` with no arguments left after
dropping `SKIP`s, and `limit(SKIP)`, all return the receiver itself,
leaving the AST unchanged (the source returns `self`; the embedding
renders this as returning the argument). -/
theorem skip_only_verbs_return_self (t : Expr) (args1 args2 : List Arg)
    (h1 : drop_skips args1 = []) (h2 : drop_skips args2 = []) :
    ITable_where t args1 = .ok t
    ∧ ITable_order_by t args2 = .ok t
    ∧ ITable_limit t .skip = .ok t :=
  ⟨by simp [ITable_where, h1], by simp [ITable_order_by, h2], rfl⟩

/-- Claim C4: `Select.make` on a `Select` merges one keyword argument
`k ∈ (columns, where_exprs, order_by_exprs, limit_expr)` as follows — when
the attribute is unset the result is the `Select` with it replaced by the
value (for either `_concat`); when it is set and `_concat` is true the
result carries `S.k + v` (list concatenation, integer addition for
`limit_expr`) with every other field unchanged; when it is set and
`_concat` is false the merge raises `ValueError`. -/
theorem Select_make_merge (tb : Expr) (cs ws os gs : Option (List Expr))
    (lim : Option Int) (k : MakeArg) :
    (keyIsSet cs ws os lim k = false → ∀ b,
      Select_make (.select tb cs ws os gs lim) b k
        = .ok (keyReplace tb cs ws os gs lim k))
    ∧ (keyIsSet cs ws os lim k = true →
      Select_make (.select tb cs ws os gs lim) true k
        = .ok (keyConcat tb cs ws os gs lim k))
    ∧ (keyIsSet cs ws os lim k = true →
      Select_make (.select tb cs ws os gs lim) false k
        = .error .valueError) := by
  refine ⟨fun h b => ?_, fun h => ?_, fun h => ?_⟩ <;>
    cases k <;> cases cs <;> cases ws <;> cases os <;> cases lim <;>
      simp_all [Select_make, keyIsSet, keyReplace, keyConcat]

/-- Counterexample to claim C1 as stated: on a plain table path,
`t.select(1).select(2)` does not produce a `Select` whose projection is
replaced by the second call's columns — it raises the merge-conflict
`ValueError` of `Select.make`, because the first `select` already set
`columns`. -/
theorem select_select_counterexample :
    ((ITable_select (.tablePath ["t"] none) [.expr (.lit (.int 1))] []).bind
        (fun s => ITable_select s [.expr (.lit (.int 2))] []))
      = .error .valueError
    ∧ ((ITable_select (.tablePath ["t"] none) [.expr (.lit (.int 1))] []).bind
        (fun s => ITable_select s [.expr (.lit (.int 2))] []))
      ≠ .ok (.select (.tablePath ["t"] none) (some [.lit (.int 2)])
          none none none none) := by
  constructor <;>
    simp [ITable_select, drop_skips, drop_skips_dict, named_exprs_as_aliases,
      source_table, resolve_names, resolveChild, Select_make, ok_bind, Except.bind]

/-- Claim C1 (amended): every successful `select` yields a `Select` whose
`columns` field is set, so a second `select` on it always fails with the
merge-conflict `ValueError`; `select` merges into an existing `Select`
without nesting only when that `Select`'s `columns` field is unset (as
after `where`/`order_by`/`limit`), in which case the projection becomes the
second call's columns. -/
theorem select_select_conflicts (t a b s : Expr)
    (h1 : ITable_select t [.expr a] [] = .ok s)
    (hb : ∀ st, resolveChild st b = .ok b) :
    ITable_select s [.expr b] [] = .error .valueError
    ∧ ∀ tb ws os gs lim, ITable_select (.select tb none ws os gs lim) [.expr b] []
        = .ok (.select tb (some [b]) ws os gs lim) := by
  have hresb : ∀ st, resolve_names st [b] = .ok [b] := fun st =>
    resolve_names_neutral st (by
      intro e he st'
      simp only [List.mem_singleton] at he
      subst he
      exact hb st')
  have hs : ∃ tb cs ws os gs lim, s = .select tb (some cs) ws os gs lim := by
    simp only [ITable_select, drop_skips, drop_skips_dict, named_exprs_as_aliases,
      List.filterMap, List.map, List.append_nil] at h1
    cases hst : source_table t with
    | error e => rw [hst] at h1; exact absurd h1 (by simp [error_bind, Except.bind])
    | ok st0 =>
        rw [hst] at h1
        simp only [ok_bind] at h1
        cases hres : resolve_names st0 [a] with
        | error e =>
            rw [hres] at h1
            exact absurd h1 (by simp [error_bind, Except.bind])
        | ok es =>
            rw [hres] at h1
            simp only [ok_bind] at h1
            exact Select_make_columns_isSet h1
  constructor
  · obtain ⟨tb, cs, ws, os, gs, lim, rfl⟩ := hs
    simp [ITable_select, drop_skips, drop_skips_dict, named_exprs_as_aliases,
      source_table, hresb, Select_make, ok_bind, Except.bind]
  · intro tb ws os gs lim
    simp [ITable_select, drop_skips, drop_skips_dict, named_exprs_as_aliases,
      source_table, hresb, Select_make, ok_bind, Except.bind]

/-- Witness for C1 (amended) at a concrete table and literal columns. -/
theorem select_select_conflicts_witness :
    ITable_select (.select (.tablePath ["t"] none) (some [.lit (.int 1)])
        none none none none) [.expr (.lit (.int 2))] [] = .error .valueError
    ∧ ∀ tb ws os gs lim,
        ITable_select (.select tb none ws os gs lim) [.expr (.lit (.int 2))] []
          = .ok (.select tb (some [.lit (.int 2)]) ws os gs lim) :=
  select_select_conflicts (.tablePath ["t"] none) (.lit (.int 1)) (.lit (.int 2))
    (.select (.tablePath ["t"] none) (some [.lit (.int 1)]) none none none none)
    (by simp [ITable_select, drop_skips, drop_skips_dict, named_exprs_as_aliases,
      source_table, resolve_names, resolveChild, Select_make, ok_bind, Except.bind])
    (fun st => by simp [resolveChild])

/-- Counterexample to claim C2 as stated: a `Join` whose `columns` field is
already set (here `[]`), asked to `select(1)`, does not return a join with
replaced columns — it returns a fresh `Select` nested over the join. -/
theorem Join_select_counterexample :
    Join_select [.tablePath ["t"] none] none none (some []) [.expr (.lit (.int 1))] []
      = .ok (.select (.join [.tablePath ["t"] none] none none (some []))
          (some [.lit (.int 1)]) none none none none)
    ∧ Join_select [.tablePath ["t"] none] none none (some []) [.expr (.lit (.int 1))] []
      ≠ .ok (.join [.tablePath ["t"] none] none none (some [.lit (.int 1)])) := by
  constructor <;>
    simp [Join_select, ITable_select, drop_skips, drop_skips_dict,
      named_exprs_as_aliases, source_table, resolve_names, resolveChild,
      Select_make, ok_bind, Except.bind]

/-- Claim C2 (amended): `Join.select` replaces the join's `columns` only
when that field is still unset; once `columns` is set it falls through to
the generic `ITable.select`, which wraps the join in a new nested `Select`
carrying the requested columns. -/
theorem Join_select_set_vs_unset (sts : List Expr) (op : Option String)
    (ons : Option (List Expr)) (cs : List Expr) (args : List Arg)
    (h : ∀ e ∈ drop_skips args, ∀ st, resolveChild st e = .ok e) :
    Join_select sts op ons (some cs) args []
      = .ok (.select (.join sts op ons (some cs)) (some (drop_skips args))
          none none none none)
    ∧ Join_select sts op ons none args []
      = .ok (.join sts op ons (some (drop_skips args))) := by
  have hres : ∀ st, resolve_names st (drop_skips args) = .ok (drop_skips args) :=
    fun st => resolve_names_neutral st h
  constructor
  · simp [Join_select, ITable_select, drop_skips_dict, named_exprs_as_aliases,
      source_table, hres, Select_make, ok_bind, Except.bind]
  · simp [Join_select, drop_skips_dict, named_exprs_as_aliases]

/-- Witness for C2 (amended) at a concrete join and a literal column. -/
theorem Join_select_set_vs_unset_witness :
    Join_select [.tablePath ["t"] none] none none (some []) [.expr (.lit (.int 1))] []
      = .ok (.select (.join [.tablePath ["t"] none] none none (some []))
          (some [.lit (.int 1)]) none none none none)
    ∧ Join_select [.tablePath ["t"] none] none none none [.expr (.lit (.int 1))] []
      = .ok (.join [.tablePath ["t"] none] none none (some [.lit (.int 1)])) :=
  Join_select_set_vs_unset [.tablePath ["t"] none] none none [] [.expr (.lit (.int 1))]
    (by
      intro e he st
      simp [drop_skips] at he
      subst he
      simp [resolveChild])

/-- Claim C5: chained `where` calls append to the existing `WHERE`
clause — for every table `t` and expressions `e1`, `e2` that resolution
leaves unchanged (in particular all placeholder-free expressions),
`t.where(e1).where(e2)` builds exactly the node `t.where(e1, e2)` builds
(hence both compile to the same SQL), and on a table path that node is a
`Select` with `where_exprs = [e1, e2]`. -/
theorem where_chain_appends (t e1 e2 : Expr)
    (h1 : ∀ st, resolveChild st e1 = .ok e1)
    (h2 : ∀ st, resolveChild st e2 = .ok e2) :
    (ITable_where t [.expr e1]).bind (fun s => ITable_where s [.expr e2])
      = ITable_where t [.expr e1, .expr e2]
    ∧ ∀ p sch, ITable_where (.tablePath p sch) [.expr e1, .expr e2]
      = .ok (.select (.tablePath p sch) none (some [e1, e2]) none none none) := by
  have hres1 : ∀ st, resolve_names st [e1] = .ok [e1] := fun st =>
    resolve_names_neutral st (by
      intro e he st'
      simp only [List.mem_singleton] at he
      subst he
      exact h1 st')
  have hres2 : ∀ st, resolve_names st [e2] = .ok [e2] := fun st =>
    resolve_names_neutral st (by
      intro e he st'
      simp only [List.mem_singleton] at he
      subst he
      exact h2 st')
  have hres12 : ∀ st, resolve_names st [e1, e2] = .ok [e1, e2] := fun st =>
    resolve_names_neutral st (by
      intro e he st'
      rcases List.mem_cons.mp he with h | h
      · subst h; exact h1 st'
      · simp only [List.mem_singleton] at h
        subst h
        exact h2 st')
  constructor
  · cases t <;>
      simp [ITable_where, drop_skips, source_table, hres1, hres2, hres12,
        Select_make, ok_bind, error_bind, Except.bind]
    case select tb cs ws os gs lim =>
      cases ws <;>
        simp [ITable_where, drop_skips, source_table, hres1, hres2, hres12,
          Select_make, ok_bind, error_bind, Except.bind]
  · intro p sch
    simp [ITable_where, drop_skips, source_table, hres12, Select_make,
      ok_bind, error_bind, Except.bind]

/-- Witness for C5: the chained and the two-argument form coincide at a
concrete table and literal predicates. -/
theorem where_chain_appends_witness :
    (ITable_where (.tablePath ["t"] none) [.expr (.lit (.int 1))]).bind
        (fun s => ITable_where s [.expr (.lit (.int 2))])
      = ITable_where (.tablePath ["t"] none) [.expr (.lit (.int 1)), .expr (.lit (.int 2))]
    ∧ ITable_where (.tablePath ["t"] none) [.expr (.lit (.int 1)), .expr (.lit (.int 2))]
      = .ok (.select (.tablePath ["t"] none) none
          (some [.lit (.int 1), .lit (.int 2)]) none none none) :=
  ⟨(where_chain_appends (.tablePath ["t"] none) (.lit (.int 1)) (.lit (.int 2))
      (fun st => by simp [resolveChild]) (fun st => by simp [resolveChild])).1,
   (where_chain_appends (.tablePath ["t"] none) (.lit (.int 1)) (.lit (.int 2))
      (fun st => by simp [resolveChild]) (fun st => by simp [resolveChild])).2 ["t"] none⟩

/-- Witness for C4: the three merge branches at a concrete `Select` and
`where_exprs` values. -/
theorem Select_make_merge_witness :
    Select_make (.select (.lit .none) none none none none none) false
        (.whereExprs [.lit (.int 1)])
      = .ok (.select (.lit .none) none (some [.lit (.int 1)]) none none none)
    ∧ Select_make (.select (.lit .none) none (some [.lit (.int 1)]) none none none) true
        (.whereExprs [.lit (.int 2)])
      = .ok (.select (.lit .none) none (some [.lit (.int 1), .lit (.int 2)]) none none none)
    ∧ Select_make (.select (.lit .none) none (some [.lit (.int 1)]) none none none) false
        (.whereExprs [.lit (.int 2)])
      = .error .valueError :=
  ⟨(Select_make_merge (.lit .none) none none none none none
      (.whereExprs [.lit (.int 1)])).1 rfl false,
   (Select_make_merge (.lit .none) none (some [.lit (.int 1)]) none none none
      (.whereExprs [.lit (.int 2)])).2.1 rfl,
   (Select_make_merge (.lit .none) none (some [.lit (.int 1)]) none none none
      (.whereExprs [.lit (.int 2)])).2.2 rfl⟩

/-- Witness for C10: a `SKIP`-only argument list on a concrete table. -/
theorem skip_only_verbs_return_self_witness :
    ITable_where (.tablePath ["t"] none) [.skip] = .ok (.tablePath ["t"] none)
    ∧ ITable_order_by (.tablePath ["t"] none) [.skip] = .ok (.tablePath ["t"] none)
    ∧ ITable_limit (.tablePath ["t"] none) .skip = .ok (.tablePath ["t"] none) :=
  skip_only_verbs_return_self (.tablePath ["t"] none) [.skip] [.skip] rfl rfl

end DataDiff
